import Mathlib

/-!
Verification development for the LZAV in-memory compression library
(single header src/c/lzav.h, version 4.5 of this repository).

The C code is shallowly embedded: byte buffers are lists of naturals
(each element a byte value 0..255), pointers become offsets into those
lists, C `int` values become Int, and `size_t` arithmetic is modelled
exactly where wrap-around can occur.  Fallible paths return the same
integer codes as the C code.  All definitions are executable so that
concrete streams can be evaluated inside proofs.

Pointer arithmetic note: the C code compares pointers such as
`ip >= ipet` where `ipet = ipe - 6` may point before the buffer start.
We model a pointer as an integer offset from the buffer base, so those
comparisons become Int comparisons (the C base address is always large
enough that no address wrap occurs for these small offsets).
-/

namespace Lzav

/-- Constant 2^64, the modulus of C `size_t` arithmetic on 64-bit targets. -/
def M64 : Nat := 18446744073709551616

/-- Subtraction in `size_t` arithmetic: (a - b) mod 2^64, for a, b < 2^64. -/
def sub64 (a b : Nat) : Nat := (a + M64 - b % M64) % M64

/-- Error code LZAV_E_PARAMS. -/
def LZAV_E_PARAMS : Int := -1
/-- Error code LZAV_E_SRCOOB. -/
def LZAV_E_SRCOOB : Int := -2
/-- Error code LZAV_E_DSTOOB. -/
def LZAV_E_DSTOOB : Int := -3
/-- Error code LZAV_E_REFOOB. -/
def LZAV_E_REFOOB : Int := -4
/-- Error code LZAV_E_DSTLEN. -/
def LZAV_E_DSTLEN : Int := -5
/-- Error code LZAV_E_UNKFMT. -/
def LZAV_E_UNKFMT : Int := -6

/-- Constant LZAV_WIN_LEN = 1 << 23: maximal reference distance. -/
def LZAV_WIN_LEN : Nat := 8388608
/-- Constant LZAV_REF_MIN = 6: minimal reference length of the default compressor. -/
def LZAV_REF_MIN : Nat := 6
/-- Constant LZAV_REF_LEN = LZAV_REF_MIN + 15 + 255 + 254 = 530. -/
def LZAV_REF_LEN : Nat := 530
/-- Constant LZAV_LIT_FIN = 6: number of trailing literals every canonical stream carries. -/
def LZAV_LIT_FIN : Nat := 6
/-- Constant LZAV_FMT_CUR = 2: current stream format id. -/
def LZAV_FMT_CUR : Nat := 2
/-- Constant LZAV_TINY_MAX = 32: upper size bound of the tiny-data fast path. -/
def LZAV_TINY_MAX : Nat := 32

/-- Read one byte of a buffer; out-of-range reads yield 0 (the C code
only performs in-range reads on the paths exercised here). -/
def byteAt (s : List Nat) (i : Nat) : Nat := s.getD i 0

/-- Little-endian 16-bit load (lzav_memcpy of 2 bytes into a uint16_t). -/
def read16 (s : List Nat) (i : Nat) : Nat :=
  byteAt s i + 256 * byteAt s (i + 1)

/-- Little-endian 32-bit load (lzav_memcpy of 4 bytes into a uint32_t). -/
def read32 (s : List Nat) (i : Nat) : Nat :=
  byteAt s i + 256 * byteAt s (i + 1) + 65536 * byteAt s (i + 2) +
    16777216 * byteAt s (i + 3)

/-- Little-endian 64-bit load (lzav_memcpy of 8 bytes into a uint64_t). -/
def read64 (s : List Nat) (i : Nat) : Nat :=
  read32 s i + 4294967296 * read32 s (i + 4)

/-- Contiguous n-byte slice of a buffer starting at offset i, padding
out-of-range positions with 0. -/
def sliceD (s : List Nat) (i n : Nat) : List Nat :=
  (List.range n).map (fun k => byteAt s (i + k))

/-- Little-endian byte decomposition of the low 32 bits of a value
(the C code stores a uint32_t with lzav_memcpy). -/
def le4 (v : Nat) : List Nat :=
  [v % 256, v / 256 % 256, v / 65536 % 256, v / 16777216 % 256]

/-- Overwrite the bytes of dst starting at position p with the given
bytes (List.set leaves out-of-range positions untouched, matching the
fact that the C code never writes out of the allocated buffer on the
paths exercised here). -/
def writeBytes (dst : List Nat) (p : Nat) : List Nat → List Nat
  | [] => dst
  | b :: bs => writeBytes (dst.set p b) (p + 1) bs

/-- Number of trailing zero bytes of a value, as computed by
__builtin_ctzll(v) >> 3 in lzav_match_len; only called on nonzero
values, where at most 7 low bytes can be zero. -/
def trailZeroBytes (v : Nat) : Nat :=
  if v % 256 ≠ 0 then 0
  else if v = 0 then 8
  else 1 + trailZeroBytes (v / 256)
decreasing_by
  exact Nat.div_lt_self (Nat.pos_of_ne_zero (by assumption)) (by norm_num)

/-- Virtual base address used to model C pointer values: pointers into a
buffer are the base plus the offset.  The concrete value only matters
for the wrap-around comparisons in lzav_match_len, where the C pointer
p1e = p1 + ml overflows when ml is a huge size_t value (this happens in
the high-ratio compressor, see lzav_compress_hi); any realistic base
makes those comparisons come out the same way. -/
def PBASE : Nat := 4294967296

/-- Tail of lzav_match_len: after the word loops, up to 3 single-byte
compares at distance k from the start, bounded by the modelled end
address p1e; returns the match length (ml when all remaining bytes
match, exactly as the final return of the C function). -/
def matchLenTail (s : List Nat) (o1 o2 ml k p1e : Nat) : Nat :=
  if (PBASE + o1 + k) % M64 < p1e then
    if byteAt s (o1 + k) ≠ byteAt s (o2 + k) then k
    else if (PBASE + o1 + k + 1) % M64 < p1e then
      if byteAt s (o1 + k + 1) ≠ byteAt s (o2 + k + 1) then k + 1
      else if (PBASE + o1 + k + 2) % M64 < p1e then
        if byteAt s (o1 + k + 2) ≠ byteAt s (o2 + k + 2) then k + 2
        else ml
      else ml
    else ml
  else ml

/-- Step of lzav_match_len following the 8-byte loop: one optional
4-byte compare and then the byte tail. -/
def matchLen4 (s : List Nat) (o1 o2 ml k p1e : Nat) : Nat :=
  if (PBASE + o1 + k + 3) % M64 < p1e then
    let vd := read32 s (o1 + k) ^^^ read32 s (o2 + k)
    if vd ≠ 0 then k + trailZeroBytes vd
    else matchLenTail s o1 o2 ml (k + 4) p1e
  else matchLenTail s o1 o2 ml k p1e

/-- Eight-byte word loop of lzav_match_len; fuel bounds the iteration
count (one iteration consumes 8 bytes of the cap, so ml / 8 + 1 always
suffices). -/
def matchLen8 (s : List Nat) (o1 o2 ml p1e : Nat) : Nat → Nat → Nat
  | _, 0 => ml
  | k, fuel + 1 =>
    if (PBASE + o1 + k + 7) % M64 < p1e then
      let vd := read64 s (o1 + k) ^^^ read64 s (o2 + k)
      if vd ≠ 0 then k + trailZeroBytes vd
      else matchLen8 s o1 o2 ml p1e (k + 8) fuel
    else matchLen4 s o1 o2 ml k p1e

/-- Embedding of lzav_match_len: forward match length of the byte ranges
starting at offsets o1 and o2 of buffer s, with the size_t cap ml.
The structure follows the LZAV_ARCH64 branch of the C code: 8-byte
word compares, one 4-byte compare, then up to 3 tail bytes.  Pointer
comparisons are carried out at modelled addresses mod 2^64 so that the
C behaviour for wrapped ml values (p1e = p1 + ml overflowing, which
makes the function return ml immediately) is reproduced. -/
def lzav_match_len (s : List Nat) (o1 o2 ml : Nat) : Nat :=
  matchLen8 s o1 o2 ml ((PBASE + o1 + ml) % M64) 0 (ml % M64 / 8 + 1)

/-- Inner 2-byte loop of lzav_match_len_r: j is the distance already
matched backwards from the origin; the loop runs while j < ml - 1. -/
def matchLenR2 (s : List Nat) (o1 o2 ml : Nat) : Nat → Nat → Nat
  | _, 0 => ml
  | j, fuel + 1 =>
    if j < ml - 1 then
      let vd := read16 s (o1 - j - 2) ^^^ read16 s (o2 - j - 2)
      if vd ≠ 0 then j + (if vd &&& 65280 = 0 then 1 else 0)
      else matchLenR2 s o1 o2 ml (j + 2) fuel
    else
      -- after the loop the C code decrements p1e and does one more
      -- single-byte compare when a byte remains
      if j < ml ∧ byteAt s (o1 - j - 1) ≠ byteAt s (o2 - j - 1) then j
      else ml

/-- Embedding of lzav_match_len_r: number of matching bytes directly
before origin offsets o1 and o2 of buffer s, capped at ml. -/
def lzav_match_len_r (s : List Nat) (o1 o2 ml : Nat) : Nat :=
  if ml = 0 then 0
  else if byteAt s (o1 - 1) ≠ byteAt s (o2 - 1) then 0
  else if ml ≠ 1 then matchLenR2 s o1 o2 ml 1 (ml + 2)
  else ml

/-- Variable-length base-128 encoding loop shared by lzav_write_blk_2
and lzav_write_fin_2: while the value exceeds 127 emit its low 7 bits
with the continuation bit 0x80 set, then emit the final byte.  Fuel 10
covers any 32-bit length. -/
def lzavVarLen : Nat → Nat → List Nat
  | lcw, 0 => [lcw % 256]
  | lcw, fuel + 1 =>
    if lcw > 127 then (128 ||| lcw % 256) :: lzavVarLen (lcw >>> 7) fuel
    else [lcw]

/-- Embedding of lzav_write_blk_2 (stream format 2).  The output list
holds exactly the bytes of the stream produced so far (C writes a few
scratch bytes beyond the logical output position with fixed-size
memcpy calls; every such byte is overwritten by the next block or by
the finishing block before the function result length is taken, so the
logical byte list is the faithful observable state).  Returns the new
output, the new carry byte position and the new carry shift. -/
def lzav_write_blk_2 (out : List Nat) (lc rc d : Nat) (src : List Nat)
    (ipa : Nat) (cbp csh mref : Nat) : List Nat × Nat × Nat :=
  let rc := rc + 1 - mref
  let out := out.set cbp ((byteAt out cbp) ||| (((d <<< 8) >>> csh) % 256))
  let d := d >>> csh
  let (out, d) :=
    if lc ≠ 0 then
      let cv := (d % 4) <<< 6
      let d := d >>> 2
      let out :=
        if lc < 16 then
          -- the lc < 9 and lc < 16 branches of the C code differ only
          -- in the scratch copy width; both emit header byte plus lc
          -- literal bytes
          out ++ [cv ||| lc] ++ sliceD src ipa lc
        else if lc < 144 then
          out ++ [cv, lc - 16] ++ sliceD src ipa lc
        else
          out ++ [cv] ++ lzavVarLen (lc - 16) 10 ++ sliceD src ipa lc
      (out, d)
    else (out, d)
  let bt := 1 + (if d > 1023 then 1 else 0) + (if d > 262143 then 1 else 0)
  let opRef := out.length
  let csh2 := if bt = 3 then 3 else 0
  if rc < 16 then
    let ov := (d <<< 6) ||| (bt <<< 4) ||| rc
    (out ++ (le4 ov).take (bt + 1), opRef + bt, csh2)
  else
    let ov := (d <<< 6) ||| (bt <<< 4)
    let out := out ++ (le4 ov).take (bt + 1)
    if rc < 271 then (out ++ [rc - 16], opRef + bt, csh2)
    else (out ++ [255, rc - 16 - 255], opRef + bt, csh2)

/-- Embedding of lzav_write_fin_2: terminal literal block writer. -/
def lzav_write_fin_2 (out : List Nat) (lc : Nat) (src : List Nat)
    (ipa : Nat) : List Nat :=
  if lc < 16 then out ++ [lc] ++ sliceD src ipa lc
  else out ++ [0] ++ lzavVarLen (lc - 16) 10 ++ sliceD src ipa lc

/-- Embedding of lzav_compress_bound, with the C constant
k = 16 + 127 + 1 = 144 inlined (so k + 6 = 150 and k - 1 = 143).
C int division truncates toward zero; every dividend and divisor here
is nonnegative, where that agrees with the Euclidean division of
Int. -/
def lzav_compress_bound (srcl : Int) : Int :=
  if srcl ≤ 0 then 16
  else (srcl - srcl / 150 * 6 + 143) / 144 * 2 - srcl / 150 + srcl + 16

/-- Embedding of lzav_compress_bound_hi (its l2 divisor is 16 + 5 = 21). -/
def lzav_compress_bound_hi (srcl : Int) : Int :=
  if srcl ≤ 0 then 16
  else (srcl - srcl / 21 * 5 + 15) / 16 * 2 - srcl / 21 + srcl + 16

/-- Embedding of lzav_tiny_compress.  A null source pointer is modelled
as none; the C code never validates the pointer on this path, so with
a null source it dereferences null (undefined behaviour) while the
returned length is computed from srcl alone; the modelled data bytes
for the null case are immaterial zeros.  The result pairs the returned
length with the bytes written to the destination. -/
def lzav_tiny_compress (src : Option (List Nat)) (srcl dstl : Int) :
    Int × List Nat :=
  if srcl ≤ 0 ∨ 32 < srcl ∨ dstl < srcl + 2 then (0, [])
  else
    (srcl + 2, 38 :: srcl.toNat % 256 ::
      ((src.getD (List.replicate srcl.toNat 0)).take srcl.toNat))

/-- Dead-offset guard of the default compressor match step, line
`if ((d < 8) | (d > LZAV_WIN_LEN - 1)) goto _d_oob;` of lzav_compress. -/
def lzav_d_oob (d : Nat) : Bool :=
  decide (d < 8) || decide (LZAV_WIN_LEN - 1 < d)

/-- Pointwise hash-table update (the C hash table is a flat uint32
array; it is modelled as a function from word index to value). -/
def htUpd (ht : Nat → Nat) (i v : Nat) : Nat → Nat :=
  fun j => if j = i then v else ht j

/-- Hash-table size doubling loop of lzav_compress and
lzav_compress_hi: double while below cap and a quarter of the size is
still smaller than the source length. -/
def htSizeLoop (cap srcl : Nat) : Nat → Nat → Nat
  | hts, 0 => hts
  | hts, fuel + 1 =>
    if hts ≠ cap ∧ hts / 4 < srcl then htSizeLoop cap srcl (hts * 2) fuel
    else hts

/-- Hash-table doubling loop of the external-buffer branch of
lzav_compress: doubling stops before exceeding the buffer capacity. -/
def htSizeCapLoop (htsizem srcl : Nat) : Nat → Nat → Nat
  | hts, 0 => hts
  | hts, fuel + 1 =>
    if hts / 4 < srcl then
      if hts * 2 > htsizem then hts
      else htSizeCapLoop htsizem srcl (hts * 2) fuel
    else hts

/-- State threaded through the main loop of lzav_compress: input
position, literals anchor, output bytes, carry byte position, carry
shift, the running match average (intptr_t in C), the dither bit and
the hash table. -/
structure CmpState where
  ip : Nat
  ipa : Nat
  out : List Nat
  cbp : Nat
  csh : Nat
  mavg : Int
  rndb : Nat
  ht : Nat → Nat

/-- Main loop of lzav_compress (default compressor).  Each iteration
advances ip by at least one byte, so fuel srcl + 1 always runs the
loop to completion. -/
def lzav_compress_loop (src : List Nat) (hmask ipe ipet : Nat) :
    Nat → CmpState → CmpState
  | 0, st => st
  | fuel + 1, st =>
    if st.ip < ipet then
      let ip := st.ip
      let iw1 := read32 src ip
      let iw2 := read16 src (ip + 4)
      let hm := (0x243F6A88 ^^^ iw1) * (0x85A308D3 ^^^ iw2)
      let hval := (hm % 4294967296) ^^^ (hm / 4294967296)
      let hp := (hval &&& hmask) / 4
      let ipo := ip
      let hw1 := st.ht hp
      -- hash-table tuple probing of lzav_compress: tuple 0 first, then
      -- tuple 1, each confirmed by the two extra bytes iw2
      let mres : Option Nat :=
        if iw1 ≠ hw1 then
          if iw1 ≠ st.ht (hp + 2) then none
          else
            let wp := st.ht (hp + 3)
            if iw2 ≠ read16 src (wp + 4) then none else some wp
        else
          let wp := st.ht (hp + 1)
          if iw2 = read16 src (wp + 4) then some wp
          else if iw1 ≠ st.ht (hp + 2) then none
          else
            let wp2 := st.ht (hp + 3)
            if iw2 ≠ read16 src (wp2 + 4) then none else some wp2
      match mres with
      | some wp =>
        let d := ip - wp
        if lzav_d_oob d then
          -- the _d_oob path: advance by one; refresh the slot only for
          -- offsets at or beyond the window length
          if d < LZAV_WIN_LEN then
            lzav_compress_loop src hmask ipe ipet fuel { st with ip := ip + 1 }
          else
            lzav_compress_loop src hmask ipe ipet fuel
              { st with
                ip := ip + 1
                ht := htUpd st.ht (hp + 1 + (if iw1 ≠ hw1 then 2 else 0)) ipo }
        else
          let ml0 := min d LZAV_REF_LEN
          let ml := if ip + ml0 > ipe then ipe - ip else ml0
          let ht1 :=
            if d > 273 then
              if iw1 = hw1 then htUpd st.ht (hp + 1) ipo
              else
                htUpd (htUpd (htUpd (htUpd st.ht (hp + 2) hw1)
                  (hp + 3) (st.ht (hp + 1))) hp iw1) (hp + 1) ipo
            else st.ht
          let rc := 6 + lzav_match_len src (ip + 6) (wp + 6) (ml - 6)
          let lc := ip - st.ipa
          let (rc, ip2, lc) :=
            if lc ≠ 0 then
              let ml2 := ml - rc
              let bmc0 := min lc 16
              let ml3 := if ml2 > bmc0 then bmc0 else ml2
              let bmc := lzav_match_len_r src ip wp ml3
              if bmc ≠ 0 then (rc + bmc, ip - bmc, lc - bmc) else (rc, ip, lc)
            else (rc, ip, lc)
          let (out, cbp, csh) :=
            lzav_write_blk_2 st.out lc rc d src st.ipa st.cbp st.csh 6
          let ipn := ip2 + rc
          lzav_compress_loop src hmask ipe ipet fuel
            { ip := ipn
              ipa := ipn
              out := out
              cbp := cbp
              csh := csh
              mavg := st.mavg + Int.fdiv ((rc : Int) * 2097152 - st.mavg) 1024
              rndb := st.rndb
              ht := ht1 }
      | none =>
        let ht1 := htUpd (htUpd st.ht (hp + 2) iw1) (hp + 3) ipo
        let mavg1 := st.mavg - Int.fdiv st.mavg 2048
        let (ipn, rndb1) :=
          if mavg1 < 3276800 ∧ ip ≠ st.ipa then
            let ip1 := ip + 1 + st.rndb
            let ip2 :=
              if mavg1 < 2129920 then
                if mavg1 < 1638400 then
                  ip1 + 1 + (100 - Int.fdiv mavg1 16384).toNat
                else ip1 + 1
              else ip1
            (ip2, ipo % 2)
          else (ip, st.rndb)
        lzav_compress_loop src hmask ipe ipet fuel
          { st with
            ip := ipn + 1
            rndb := rndb1
            mavg := mavg1
            ht := ht1 }
    else st

/-- Embedding of lzav_compress.  Null pointers are modelled as none for
the source and as Boolean flags for a null destination and for
aliasing src = dst; extBufl is the capacity of an optional external
hash-table buffer (the table contents are not observable, only the
size negotiation matters).  Heap allocation is modelled as always
succeeding.  The result pairs the returned length with the bytes
written to the destination. -/
def lzav_compress (src : Option (List Nat)) (dstNull aliased : Bool)
    (srcl dstl : Int) (extBufl : Option Int) : Int × List Nat :=
  -- fast path for tiny data
  if srcl ≤ 32 then lzav_tiny_compress src srcl dstl
  else if srcl ≤ 0 ∨ src = none ∨ dstNull ∨ aliased ∨
      dstl < lzav_compress_bound srcl then (0, [])
  else
    let s := src.getD []
    let out0 : List Nat := [38]
    if srcl < 16 then
      -- extremely small data path (unreachable here because
      -- srcl > 32, transcribed for fidelity)
      let n := srcl.toNat
      let out := out0 ++ [n % 256] ++ s.take n
      if srcl > 5 then (2 + srcl, out)
      else (8, out ++ List.replicate (6 - n) 0)
    else
      let n := srcl.toNat
      let htsize1 : Nat :=
        if srcl ≤ 256 then 512 else htSizeLoop 1048576 n 2048 64
      let htsize : Nat :=
        match extBufl with
        | none => htSizeLoop 1048576 n htsize1 64
        | some ebl =>
          let htsizem : Nat := if ebl > 16384 then ebl.toNat else 16384
          htSizeCapLoop htsizem n htsize1 64
      let hmask := (htsize - 1) ^^^ 15
      let ipe := n - 6
      let ipet := ipe - 9
      let iv0 := if 16 < ipet then read32 s 16 else 0
      let ht0 : Nat → Nat := fun i => if i % 2 = 0 then iv0 else 16
      let st := lzav_compress_loop s hmask ipe ipet (n + 1)
        { ip := 16
          ipa := 0
          out := out0
          cbp := 1
          csh := 0
          mavg := 209715200
          rndb := 0
          ht := ht0 }
      let out := lzav_write_fin_2 st.out (ipe - st.ipa + 6) s st.ipa
      ((out.length : Int), out)

/-- State threaded through the main loop of lzav_compress_hi: in
addition to the default-compressor state it keeps the deferred match
(prc, pd, pip) of the lazy-matching scheme. -/
structure HiState where
  ip : Nat
  ipa : Nat
  out : List Nat
  cbp : Nat
  csh : Nat
  prc : Nat
  pd : Nat
  pip : Nat
  ht : Nat → Nat

/-- Candidate scan of lzav_compress_hi: walks the 7 stored tuples of a
slot starting at the head index, keeping the best (wp, rc) under the
wide-offset penalty rule; d always holds the distance of the most
recently examined tuple (the C code saves only wp and rc on
improvement, so the d consumed afterwards is the last tuple's
distance).  rc0 is size_t arithmetic: for d < 4 the cap underflows,
lzav_match_len then returns the huge cap because its end pointer
wraps, and the subsequent + 4 wraps rc0 to d itself. -/
def hiScan (s : List Nat) (ht : Nat → Nat) (hpB iw1 ip mlen ipe : Nat)
    (fast : Bool) : Nat → Nat × Nat × Nat × Nat → Nat × Nat × Nat × Nat
  | 0, acc => acc
  | i + 1, (wp, rc, _, ti) =>
    let ww1 := ht (hpB + ti)
    let wp0 := ht (hpB + ti + 1)
    let d := ip - wp0
    let ti2 := if ti = 12 then 0 else ti + 2
    if iw1 = ww1 then
      let rc0 :=
        if fast then
          (4 + lzav_match_len s (ip + 4) (wp0 + 4) (sub64 (min d mlen) 4)) % M64
        else
          let ml := min d mlen
          let ml := if ip + ml > ipe then ipe - ip else ml
          (4 + lzav_match_len s (ip + 4) (wp0 + 4) (sub64 ml 4)) % M64
      if rc0 > rc + (if d > 262144 then 1 else 0) then
        hiScan s ht hpB iw1 ip mlen ipe fast i (wp0, rc0, d, ti2)
      else hiScan s ht hpB iw1 ip mlen ipe fast i (wp, rc, d, ti2)
    else hiScan s ht hpB iw1 ip mlen ipe fast i (wp, rc, d, ti2)

/-- Block-size overhead estimate of lzav_compress_hi for a candidate
with literal run lc, distance d, given the current carry shift. -/
def hiOverhead (lc d csh : Nat) : Nat :=
  let lb := if lc ≠ 0 then 1 else 0
  let sh := 10 + (if csh ≠ 0 then 1 else 0) * 3 + lb * 2
  lc + lb + (if lc > 15 then 1 else 0) + 2 +
    (if d ≥ 1 <<< sh then 1 else 0) + (if d ≥ 1 <<< (sh + 8) then 1 else 0)

/-- Main loop of lzav_compress_hi.  mlen = LZAV_REF_LEN - LZAV_REF_MIN
+ mref = 529. -/
def lzav_compress_hi_loop (s : List Nat) (hmask ipe ipet : Nat) :
    Nat → HiState → HiState
  | 0, st => st
  | fuel + 1, st =>
    if st.ip < ipet then
      let ip := st.ip
      let iw1 := read32 s ip
      let hm := (0x243F6A88 ^^^ iw1) * (0x85A308D3 ^^^ byteAt s (ip + 4))
      let hval := (hm % 4294967296) ^^^ (hm / 4294967296)
      let hpB := (hval &&& hmask) / 4
      let ipo := ip
      let ti0 := st.ht (hpB + 15)
      let fast := ip + 529 < ipe
      let (wp, rc, d, _) := hiScan s st.ht hpB iw1 ip 529 ipe fast 7 (ip, 0, 0, ti0)
      let ht1 :=
        if rc = 0 ∨ d > 273 then
          let th := if ti0 = 0 then 12 else ti0 - 2
          htUpd (htUpd (htUpd st.ht (hpB + th) iw1) (hpB + th + 1) ipo)
            (hpB + 15) th
        else st.ht
      if rc < 5 + (if d > 262144 then 1 else 0) ∨ d < 8 ∨ LZAV_WIN_LEN - 1 < d then
        lzav_compress_hi_loop s hmask ipe ipet fuel
          { st with ip := ip + 1, ht := ht1 }
      else
        -- suitable match: optional backward extension
        let ip0 := ip
        let lc := ip - st.ipa
        let (rc, ip, lc) :=
          if lc ≠ 0 then
            let ml := min d 529
            let ml := if ip + ml > ipe then ipe - ip else ml
            let ml := sub64 ml rc
            let wpo := wp
            let ml := if ml > lc then lc else ml
            let ml := if ml > wpo then wpo else ml
            let bmc := lzav_match_len_r s ip wp ml
            if bmc ≠ 0 then (rc + bmc, ip - bmc, lc - bmc) else (rc, ip, lc)
          else (rc, ip, lc)
        if st.prc = 0 then
          -- remember the match, advance one position (lazy matching)
          lzav_compress_hi_loop s hmask ipe ipet fuel
            { st with
              ip := ip0 + 1
              prc := rc
              pd := d
              pip := ip
              ht := ht1 }
        else
          let ov := hiOverhead lc d st.csh
          let plc := st.pip - st.ipa
          let pov := hiOverhead plc st.pd st.csh
          if st.prc * ov > rc * pov then
            if st.pip + st.prc ≤ ip then
              -- previous match wins and does not overlap: emit it,
              -- keep the current one as the new deferred match
              let (out, cbp, csh) :=
                lzav_write_blk_2 st.out plc st.prc st.pd s st.ipa st.cbp st.csh 5
              lzav_compress_hi_loop s hmask ipe ipet fuel
                { ip := ip + 1
                  ipa := st.pip + st.prc
                  out := out
                  cbp := cbp
                  csh := csh
                  prc := rc
                  pd := d
                  pip := ip
                  ht := ht1 }
            else
              -- previous match wins but overlaps: discard the current
              -- match and emit the previous one
              let (out, cbp, csh) :=
                lzav_write_blk_2 st.out plc st.prc st.pd s st.ipa st.cbp st.csh 5
              lzav_compress_hi_loop s hmask ipe ipet fuel
                { ip := st.pip + st.prc
                  ipa := st.pip + st.prc
                  out := out
                  cbp := cbp
                  csh := csh
                  prc := 0
                  pd := st.pd
                  pip := st.pip
                  ht := ht1 }
          else
            let (out, cbp, csh) :=
              lzav_write_blk_2 st.out lc rc d s st.ipa st.cbp st.csh 5
            lzav_compress_hi_loop s hmask ipe ipet fuel
              { ip := ip + rc
                ipa := ip + rc
                out := out
                cbp := cbp
                csh := csh
                prc := 0
                pd := st.pd
                pip := st.pip
                ht := ht1 }
    else st

/-- Embedding of lzav_compress_hi (higher-ratio compressor), with the
same pointer-modelling conventions as lzav_compress. -/
def lzav_compress_hi (src : Option (List Nat)) (dstNull aliased : Bool)
    (srcl dstl : Int) : Int × List Nat :=
  if srcl ≤ 0 ∨ src = none ∨ dstNull ∨ aliased ∨
      dstl < lzav_compress_bound_hi srcl then (0, [])
  else
    let s := src.getD []
    let out0 : List Nat := [37]
    if srcl < 16 then
      let n := srcl.toNat
      let out := out0 ++ [n % 256] ++ s.take n
      if srcl > 5 then (2 + srcl, out)
      else (8, out ++ List.replicate (6 - n) 0)
    else
      let n := srcl.toNat
      let htsize := htSizeLoop 8388608 n 8192 64
      let hmask := (htsize - 1) ^^^ 63
      let ipe := n - 6
      let ipet := ipe - 9
      let iv0 := read32 s 0
      let ht0 : Nat → Nat := fun i => if i % 2 = 0 then iv0 else 0
      let st := lzav_compress_hi_loop s hmask ipe ipet (8 * n + 64)
        { ip := 0
          ipa := 0
          out := out0
          cbp := 1
          csh := 0
          prc := 0
          pd := 0
          pip := 0
          ht := ht0 }
      let (out, ipa) :=
        if st.prc ≠ 0 then
          let (out, _, _) :=
            lzav_write_blk_2 st.out (st.pip - st.ipa) st.prc st.pd s st.ipa
              st.cbp st.csh 5
          (out, st.pip + st.prc)
        else (st.out, st.ipa)
      let out := lzav_write_fin_2 out (ipe - ipa + 6) s ipa
      ((out.length : Int), out)

/-- Byte-by-byte forward copy inside the destination buffer, the slow
tail of reference expansion in both decoders: `*op = *ipd; ++ipd; ++op`
repeated cc times.  Each byte is read from the current buffer state,
so freshly written bytes feed the copy when the regions overlap. -/
def lzav_copy_fwd : List Nat → Nat → Nat → Nat → List Nat
  | dst, _, _, 0 => dst
  | dst, op, ipd, cc + 1 =>
    lzav_copy_fwd (dst.set op (byteAt dst ipd)) (op + 1) (ipd + 1) cc

/-- Model of the LZAV_MEMMOVE macro of the decoders: a fixed-size block
copy through a temporary buffer, so all k bytes are read from the
pre-state before any write happens. -/
def memmoveK (dst : List Nat) (op ipd k : Nat) : List Nat :=
  writeBytes dst op (sliceD dst ipd k)

/-- Extended literal length parse loop of lzav_decompress_2: continues
while the continuation bit is set, for at most 4 additional bytes. -/
def litLenLoop (s : List Nat) : Nat → Nat → Nat → Nat → Nat → Nat × Nat
  | 0, _, ip, cc, _ => (cc, ip)
  | fuel + 1, lcw, ip, cc, sh =>
    if lcw &&& 128 ≠ 0 then
      let lcw2 := byteAt s ip
      let ip := ip + 1
      let cc := cc ||| ((lcw2 &&& 127) <<< sh)
      if sh = 28 then (cc, ip)
      else litLenLoop s fuel lcw2 ip cc (sh + 7)
    else (cc, ip)

/-- Decoder state: compressed position, output position, carry value,
carry shift, current block header byte, destination bytes. -/
abbrev DecSt := Nat × Nat × Nat × Nat × Nat × List Nat

/-- Final decoder result: return code, destination bytes, and the
written-length out-parameter pwl of lzav_decompress_2. -/
abbrev DecRes := Int × List Nat × Nat

/-- Reference block processing of lzav_decompress_2 (label _refblk),
entered either directly from the loop head or from the literal branch.
Returns either a final result (error paths) or the state with which
the main loop continues. -/
def d2ref (s : List Nat) (dstl : Nat) (mref1 : Int) (opet : Int)
    (ip op cv csh bh : Nat) (dst : List Nat) : DecRes ⊕ DecSt :=
  let bt := (bh >>> 4) &&& 3
  let ip := ip + 1
  let bt8 := bt * 8
  let bv := read32 s ip
  let om := (1 <<< bt8) - 1
  let ip := ip + bt
  let o := bv &&& om
  let bv := bv >>> bt8
  let wcsh := if bt = 3 then 3 else 0
  let d := (((bh >>> 6) ||| ((o &&& 0x1FFFFF) <<< 2)) <<< csh) ||| cv
  if d > op then Sum.inl (LZAV_E_REFOOB, dst, op)
  else
    let ipd := op - d
    let csh := wcsh
    let cv := o >>> 21
    let cc0 := bh &&& 15
    -- slow tail shared by both length shapes; opN and ipdN reflect any
    -- 64-byte fast copy already performed
    let tailB : Nat → Nat → List Nat → Nat → Nat → Int → DecRes ⊕ DecSt :=
      fun ipN bhN dstN ipdN opN ccN =>
        if (opN : Int) + ccN > (dstl : Int) then
          -- the lzav_memmove fallback writes the original bytes
          Sum.inl (LZAV_E_DSTOOB,
            writeBytes dstN opN (sliceD dstN ipdN (dstl - opN)), dstl)
        else
          Sum.inr (ipN, opN + ccN.toNat, cv, csh, bhN,
            lzav_copy_fwd dstN opN ipdN ccN.toNat)
    if cc0 ≠ 0 then
      let bh := bv &&& 255
      let cc : Int := (cc0 : Int) + mref1
      if (op : Int) < opet then
        let dst := memmoveK dst op ipd 16
        let dst := memmoveK dst (op + 16) (ipd + 16) 4
        Sum.inr (ip, op + cc.toNat, cv, csh, bh, dst)
      else tailB ip bh dst ipd op cc
    else
      let bh1 := bv &&& 255
      let (cc, bh, ip) : Int × Nat × Nat :=
        if bh1 = 255 then
          (16 + mref1 + 255 + (byteAt s (ip + 1) : Int), byteAt s (ip + 2), ip + 2)
        else
          (16 + mref1 + (bh1 : Int), byteAt s (ip + 1), ip + 1)
      if (op : Int) < opet then
        let dst := memmoveK dst op ipd 16
        let dst := memmoveK dst (op + 16) (ipd + 16) 16
        let dst := memmoveK dst (op + 32) (ipd + 32) 16
        let dst := memmoveK dst (op + 48) (ipd + 48) 16
        if cc < 65 then Sum.inr (ip, op + cc.toNat, cv, csh, bh, dst)
        else tailB ip bh dst (ipd + 64) (op + 64) (cc - 64)
      else tailB ip bh dst ipd op cc

/-- Main loop of lzav_decompress_2.  Each iteration advances the
compressed position by at least one byte, so fuel srcl + 1 always runs
the loop to completion; the fuel-exhaustion result is never reached
for that fuel. -/
def d2loop (s : List Nat) (srcl dstl : Nat) (mref1 : Int) (ipet opet : Int) :
    Nat → DecSt → DecRes
  | 0, (_, op, _, _, _, dst) => (-1000000, dst, op)
  | fuel + 1, (ip, op, cv, csh, bh, dst) =>
    if (ip : Int) < ipet then
      if bh &&& 0x30 = 0 then
        -- literal block
        let ncv := bh >>> 6
        let ip := ip + 1
        let cc := bh &&& 15
        -- the shared fall-through tail (reload of bh, destination
        -- check, byte-by-byte copy from the compressed stream); opN
        -- and ipdN reflect any 64-byte fast copy already performed
        let slowA : Nat → Nat → Nat → Nat → List Nat → DecRes :=
          fun ipN ccN ipdN opN dstN =>
            let cv := cv ||| (ncv <<< csh)
            let csh := csh + 2
            if ipN ≤ srcl then
              let bh := if ipN < srcl then byteAt s ipN else bh
              if opN + ccN > dstl then
                (LZAV_E_DSTOOB,
                  writeBytes dstN opN (sliceD s ipdN (dstl - opN)), dstl)
              else
                d2loop s srcl dstl mref1 ipet opet fuel
                  (ipN, opN + ccN, cv, csh, bh,
                    writeBytes dstN opN (sliceD s ipdN ccN))
            else
              -- _err_srcoob_lit
              let cc2 : Int := (srcl : Int) - (ipdN : Int)
              if (opN : Int) + cc2 < (dstl : Int) then
                (LZAV_E_SRCOOB,
                  writeBytes dstN opN (sliceD s ipdN cc2.toNat), opN + cc2.toNat)
              else
                (LZAV_E_SRCOOB,
                  writeBytes dstN opN (sliceD s ipdN (dstl - opN)), dstl)
        if cc ≠ 0 then
          let ipd := ip
          let ncvs := ncv <<< csh
          let ip := ip + cc
          if (op : Int) < opet ∧ (ipd : Int) < (srcl : Int) - 22 then
            let cv := cv ||| ncvs
            let csh := csh + 2
            let bh := byteAt s ip
            let dst := writeBytes dst op (sliceD s ipd 16)
            let op := op + cc
            match d2ref s dstl mref1 opet ip op cv csh bh dst with
            | Sum.inl r => r
            | Sum.inr st => d2loop s srcl dstl mref1 ipet opet fuel st
          else slowA ip cc ipd op dst
        else
          let lcw := byteAt s ip
          let ip := ip + 1
          let (cc, ip) := litLenLoop s 8 lcw ip (lcw &&& 127) 7
          let cc := cc + 16
          let ipd := ip
          let ip := ip + cc
          if (op : Int) < opet ∧ (ipd : Int) < (srcl : Int) - 79 then
            let dst := writeBytes dst op (sliceD s ipd 64)
            if cc < 65 then
              let cv := cv ||| (ncv <<< csh)
              let csh := csh + 2
              let bh := byteAt s ip
              let op := op + cc
              match d2ref s dstl mref1 opet ip op cv csh bh dst with
              | Sum.inl r => r
              | Sum.inr st => d2loop s srcl dstl mref1 ipet opet fuel st
            else slowA ip (cc - 64) (ipd + 64) (op + 64) dst
          else slowA ip cc ipd op dst
      else
        match d2ref s dstl mref1 opet ip op cv csh bh dst with
        | Sum.inl r => r
        | Sum.inr st => d2loop s srcl dstl mref1 ipet opet fuel st
    else
      if op ≠ dstl then (LZAV_E_DSTLEN, dst, op)
      else ((op : Int), dst, dstl)

/-- Embedding of lzav_decompress_2 (stream format 2 decoder).  Returns
the result code, the final destination bytes, and the value written to
the out-parameter pwl (bytes written; left at dstl unless an error
path overrides it, exactly as in the C code which assigns dstl to it
at entry). -/
def lzav_decompress_2 (s dstInit : List Nat) (srcl dstl : Nat) : DecRes :=
  let mref1 : Int := (byteAt s 0 % 16 : Int) - 1
  let ipet : Int := (srcl : Int) - 6
  let opet : Int := (dstl : Int) - 63
  if (1 : Int) ≥ ipet then (LZAV_E_SRCOOB, dstInit, 0)
  else
    d2loop s srcl dstl mref1 ipet opet (srcl + 1) (1, 0, 0, 0, byteAt s 1, dstInit)

/-- Reference block processing of lzav_decompress_1 (legacy stream
format 1), returning either a final result or the continuation
state. -/
def d1ref (s : List Nat) (dstl : Nat) (mref1 : Int) (opet : Int)
    (ip op cv csh bh : Nat) (dst : List Nat) : (Int × List Nat) ⊕ DecSt :=
  let cc0 := bh &&& 15
  -- distance decoding by block type; the SET_IPD macros compute the
  -- distance from the current carry state, then install the new one
  let (d, cv2, csh2, ip2, bh2) :=
    if bh &&& 32 = 0 then
      ((((bh >>> 6) ||| (byteAt s (ip + 1) <<< 2)) <<< csh) ||| cv,
        0, 0, ip + 2, byteAt s (ip + 2))
    else if bh &&& 16 = 0 then
      ((((bh >>> 6) ||| (read16 s (ip + 1) <<< 2)) <<< csh) ||| cv,
        0, 0, ip + 3, byteAt s (ip + 3))
    else
      let bv := read32 s (ip + 1)
      (((bv &&& 0xFFFFFF) <<< csh) ||| cv, bh >>> 6, 2, ip + 4, bv >>> 24)
  if d > op then Sum.inl (LZAV_E_REFOOB, dst)
  else
    let ipd := op - d
    let tail1 : Nat → Nat → List Nat → Nat → Nat → Int → (Int × List Nat) ⊕ DecSt :=
      fun ipN bhN dstN ipdN opN ccN =>
        if (opN : Int) + ccN > (dstl : Int) then Sum.inl (LZAV_E_DSTOOB, dstN)
        else
          Sum.inr (ipN, opN + ccN.toNat, cv2, csh2, bhN,
            lzav_copy_fwd dstN opN ipdN ccN.toNat)
    if cc0 ≠ 0 then
      let cc : Int := (cc0 : Int) + mref1
      if (op : Int) < opet then
        let dst := memmoveK dst op ipd 16
        let dst := memmoveK dst (op + 16) (ipd + 16) 4
        Sum.inr (ip2, op + cc.toNat, cv2, csh2, bh2, dst)
      else tail1 ip2 bh2 dst ipd op cc
    else
      let cc : Int := 16 + mref1 + (bh2 : Int)
      let ip3 := ip2 + 1
      let bh3 := byteAt s ip3
      if (op : Int) < opet then
        let dst := memmoveK dst op ipd 16
        let dst := memmoveK dst (op + 16) (ipd + 16) 16
        let dst := memmoveK dst (op + 32) (ipd + 32) 16
        let dst := memmoveK dst (op + 48) (ipd + 48) 16
        if cc < 65 then Sum.inr (ip3, op + cc.toNat, cv2, csh2, bh3, dst)
        else tail1 ip3 bh3 dst (ipd + 64) (op + 64) (cc - 64)
      else tail1 ip3 bh3 dst ipd op cc

/-- Main loop of lzav_decompress_1 (legacy stream format 1 decoder,
compiled because LZAV_FMT_MIN = 1 in this repository). -/
def d1loop (s : List Nat) (srcl dstl : Nat) (mref1 : Int) (ipet opet : Int) :
    Nat → DecSt → Int × List Nat
  | 0, (_, _, _, _, _, dst) => (-1000000, dst)
  | fuel + 1, (ip, op, cv0, csh0, bh, dst) =>
    if (ip : Int) < ipet then
      if bh &&& 0x30 = 0 then
        let cv := bh >>> 6
        let csh := 2
        let ip := ip + 1
        let cc := bh &&& 15
        let slowA : Nat → Nat → Nat → Nat → List Nat → Int × List Nat :=
          fun ipN ccN ipdN opN dstN =>
            if ipN ≤ srcl then
              let bh := if ipN < srcl then byteAt s ipN else bh
              if opN + ccN > dstl then (LZAV_E_DSTOOB, dstN)
              else
                d1loop s srcl dstl mref1 ipet opet fuel
                  (ipN, opN + ccN, cv, csh, bh,
                    writeBytes dstN opN (sliceD s ipdN ccN))
            else (LZAV_E_SRCOOB, dstN)
        if cc ≠ 0 then
          let ipd := ip
          let ip := ip + cc
          if (op : Int) < opet ∧ (ipd : Int) < (srcl : Int) - 21 then
            let bh := byteAt s ip
            let dst := writeBytes dst op (sliceD s ipd 16)
            let op := op + cc
            match d1ref s dstl mref1 opet ip op cv csh bh dst with
            | Sum.inl r => r
            | Sum.inr st => d1loop s srcl dstl mref1 ipet opet fuel st
          else slowA ip cc ipd op dst
        else
          let bv := read16 s ip
          let l2 := bv &&& 255
          let ip := ip + 1
          let lb := if l2 = 255 then 1 else 0
          let cc := 16 + l2 + ((bv >>> 8) &&& (256 - lb))
          let ip := ip + lb
          let ipd := ip
          let ip := ip + cc
          if (op : Int) < opet ∧ (ipd : Int) < (srcl : Int) - 64 then
            let dst := writeBytes dst op (sliceD s ipd 64)
            if cc < 65 then
              let bh := byteAt s ip
              d1loop s srcl dstl mref1 ipet opet fuel
                (ip, op + cc, cv, csh, bh, dst)
            else slowA ip (cc - 64) (ipd + 64) (op + 64) dst
          else slowA ip cc ipd op dst
      else
        match d1ref s dstl mref1 opet ip op cv0 csh0 bh dst with
        | Sum.inl r => r
        | Sum.inr st => d1loop s srcl dstl mref1 ipet opet fuel st
    else
      if op ≠ dstl then (LZAV_E_DSTLEN, dst)
      else ((op : Int), dst)

/-- Embedding of lzav_decompress_1 (legacy format 1 decoder). -/
def lzav_decompress_1 (s dstInit : List Nat) (srcl dstl : Nat) :
    Int × List Nat :=
  let mref1 : Int := (byteAt s 0 % 16 : Int) - 1
  let ipet : Int := (srcl : Int) - 5
  let opet : Int := (dstl : Int) - 63
  if (1 : Int) ≥ ipet then (LZAV_E_SRCOOB, dstInit)
  else
    d1loop s srcl dstl mref1 ipet opet (srcl + 1) (1, 0, 0, 0, byteAt s 1, dstInit)

/-- Embedding of lzav_decompress.  Null source and destination buffers
are modelled as none; aliased src = dst as a flag.  The result pairs
the return value with the final destination bytes. -/
def lzav_decompress (src dst : Option (List Nat)) (aliased : Bool)
    (srcl dstl : Nat) : Int × List Nat :=
  match src, dst with
  | none, d => (LZAV_E_PARAMS, d.getD [])
  | some _, none => (LZAV_E_PARAMS, [])
  | some s, some d0 =>
    if aliased then (LZAV_E_PARAMS, d0)
    else
      let fmt := byteAt s 0 / 16
      let rest : Unit → Int × List Nat := fun _ =>
        if fmt = 2 then
          let r := lzav_decompress_2 s d0 srcl dstl
          (r.1, r.2.1)
        else if fmt = 1 then lzav_decompress_1 s d0 srcl dstl
        else (LZAV_E_UNKFMT, d0)
      -- fast path for tiny data
      if srcl ≤ 34 ∧ byteAt s 0 / 16 = 2 then
        let len := byteAt s 1
        if len ≤ 32 ∧ len ≤ dstl then
          ((len : Int), writeBytes d0 0 (sliceD s 2 len))
        else rest ()
      else rest ()

/-- Embedding of lzav_decompress_partial (named lzav_decompress_p
here).  It returns the number of bytes written (the pwl out-parameter
of lzav_decompress_2, which that function assigns dstl at entry and
overrides on error paths), never an error code. -/
def lzav_decompress_p (src dst : Option (List Nat)) (aliased : Bool)
    (srcl dstl : Nat) : Int × List Nat :=
  match src, dst with
  | none, d => (0, d.getD [])
  | some _, none => (0, [])
  | some s, some d0 =>
    if aliased then (0, d0)
    else
      let fmt := byteAt s 0 / 16
      if fmt = 2 then
        let r := lzav_decompress_2 s d0 srcl dstl
        ((r.2.2 : Int), r.2.1)
      else (0, d0)

/-- Dead-offset predicate as claim C8 (from the specification) states
it: a candidate distance is dead exactly when it is below REF_MIN or
above WIN_LEN - 1.  This is the claimed counterpart of the guard
lzav_d_oob actually used by lzav_compress. -/
def spec_dead_offset (d : Nat) : Prop :=
  d < LZAV_REF_MIN ∨ LZAV_WIN_LEN - 1 < d

/-- Hand-built format-2 stream for claim C7: prefix byte 0x26, a
literal block of 6 bytes 65..70, one reference block with header 0x5F
(block type 1, reference length field 15) and offset byte 0, which
decodes to distance d = 4 and length rc = 15 + mref1 = 20 — an
overlapping (RLE) reference covering output positions 6..25 — and a
terminal literal block of 44 bytes 0x61 for a total output of 70
bytes, large enough that the decoder takes its fast copy path on the
reference. -/
def c7Stream : List Nat :=
  [38, 6, 65, 66, 67, 68, 69, 70, 95, 0, 0, 28] ++ List.replicate 44 97

/-! Helper lemmas about the self-feeding byte copy, used for claim C7. -/

/-- Reading a set position returns the written byte when in range. -/
theorem byteAt_set_self (dst : List Nat) (p b : Nat) (h : p < dst.length) :
    byteAt (dst.set p b) p = b := by
  simp [byteAt, List.getD_eq_getElem?_getD, List.getElem?_set_self, h]

/-- Reading any other position is unaffected by a set. -/
theorem byteAt_set_ne (dst : List Nat) (p b k : Nat) (h : k ≠ p) :
    byteAt (dst.set p b) k = byteAt dst k := by
  simp [byteAt, List.getD_eq_getElem?_getD, List.getElem?_set_ne (Ne.symm h)]

/-- The byte copy preserves the buffer length. -/
theorem copyFwd_length (cc : Nat) : ∀ (dst : List Nat) (op ipd : Nat),
    (lzav_copy_fwd dst op ipd cc).length = dst.length := by
  induction cc with
  | zero => intro dst op ipd; rfl
  | succ n ih =>
    intro dst op ipd
    simp only [lzav_copy_fwd]
    rw [ih]
    simp

/-- The byte copy never modifies positions before the write start. -/
theorem copyFwd_byteAt_lt (cc : Nat) : ∀ (dst : List Nat) (op ipd k : Nat),
    k < op → byteAt (lzav_copy_fwd dst op ipd cc) k = byteAt dst k := by
  induction cc with
  | zero => intro dst op ipd k _; rfl
  | succ n ih =>
    intro dst op ipd k hk
    simp only [lzav_copy_fwd]
    rw [ih _ _ _ _ (by omega)]
    exact byteAt_set_ne dst op (byteAt dst ipd) k (by omega)

/-- C7 (amended): when the format-2 decoder expands a reference block
through its byte-by-byte copy loop (the slow path, taken whenever the
destination margin check op < opet fails), every emitted byte equals
the output byte d = op - ipd positions earlier in the already-produced
output, for every position of the copied range.  (As stated over all
expansions the claim is false: the fast path uses 16-byte block copies
through a temporary, see the counterexample.) -/
theorem claim_C7_amended : ∀ (cc : Nat) (dst : List Nat) (op ipd : Nat),
    ipd < op → op + cc ≤ dst.length → ∀ i, i < cc →
    byteAt (lzav_copy_fwd dst op ipd cc) (op + i) =
      byteAt (lzav_copy_fwd dst op ipd cc) (ipd + i) := by
  intro cc
  induction cc with
  | zero => intro dst op ipd _ _ i hi; exact absurd hi (Nat.not_lt_zero i)
  | succ n ih =>
    intro dst op ipd hlt hlen i hi
    simp only [lzav_copy_fwd]
    cases i with
    | zero =>
      rw [copyFwd_byteAt_lt n _ _ _ _ (by omega),
        copyFwd_byteAt_lt n _ _ _ _ (by omega)]
      rw [Nat.add_zero, Nat.add_zero]
      rw [byteAt_set_self dst op (byteAt dst ipd) (by omega),
        byteAt_set_ne dst op (byteAt dst ipd) ipd (by omega)]
    | succ j =>
      have h := ih (dst.set op (byteAt dst ipd)) (op + 1) (ipd + 1)
        (by omega) (by simp; omega) j (by omega)
      have e1 : op + (j + 1) = op + 1 + j := by omega
      have e2 : ipd + (j + 1) = ipd + 1 + j := by omega
      rw [e1, e2]
      exact h

/-- Witness for claim C7 (amended) at a concrete instance: buffer
[1, 2, 0, 0], copy start 1, read start 0, three bytes, position 2. -/
theorem claim_C7_amended_witness :
    (0 : Nat) < 1 ∧ 1 + 3 ≤ ([1, 2, 0, 0] : List Nat).length ∧ 2 < 3 ∧
      byteAt (lzav_copy_fwd [1, 2, 0, 0] 1 0 3) (1 + 2) =
        byteAt (lzav_copy_fwd [1, 2, 0, 0] 1 0 3) (0 + 2) :=
  ⟨by decide, by decide, by decide,
    claim_C7_amended 3 [1, 2, 0, 0] 1 0 (by decide) (by decide) 2 (by decide)⟩

/-- C7 (counterexample): decoding c7Stream succeeds (returns the full
destination length 70), yet inside the span of its single reference
block — distance d = 4, length rc = 20, output positions 6..25 — the
produced byte at position 10 is 95 (a stale byte the 16-byte block
copy picked up) while the byte at position 10 - d = 6 is 67; the claim
demands they be equal.  This falsifies claim C7 as stated. -/
theorem claim_C7_cex :
    (lzav_decompress (some c7Stream) (some (List.replicate 70 0))
      false 56 70).1 = 70 ∧
    byteAt (lzav_decompress (some c7Stream) (some (List.replicate 70 0))
      false 56 70).2 10 = 95 ∧
    byteAt (lzav_decompress (some c7Stream) (some (List.replicate 70 0))
      false 56 70).2 6 = 67 := by
  refine ⟨by decide, by decide, by decide⟩

/-- C1: round-trip fails on the code.  The high-ratio compressor
succeeds on the 16-byte all-65 source with the adequate destination
size lzav_compress_bound_hi 16 = 34, producing the canonical 19-byte
stream 0x25, 0x00, 0x00 followed by the 16 source bytes (prefix byte,
then the terminal literal block with length 16).  lzav_decompress
applied to that stream with expected length 16 does not return 16 with
the original bytes: its tiny-data fast path fires (source length
19 <= 34 and format nibble 2), reads the second stream byte 0 as a
tiny length and returns 0, leaving the destination untouched. -/
theorem claim_C1_roundtrip_failure :
    lzav_compress_bound_hi 16 = 34 ∧
    lzav_compress_hi (some (List.replicate 16 65)) false false 16 34 =
      (19, [37, 0, 0] ++ List.replicate 16 65) ∧
    lzav_decompress (some ([37, 0, 0] ++ List.replicate 16 65))
      (some (List.replicate 16 0)) false 19 16 = (0, List.replicate 16 0) := by
  refine ⟨by decide, by decide, by decide⟩

/-- C2: lzav_decompress can return a non-negative value different from
dstl.  On the 2-byte source 0x20, 0x00 with dstl = 5 the tiny-data
fast path returns 0 (non-negative, not equal to 5, and not a negative
error code), contradicting the claim and the function's own
documentation that a non-negative return always equals dstl. -/
theorem claim_C2_nonneg_without_dstl :
    lzav_decompress (some [32, 0]) (some (List.replicate 5 0)) false 2 5 =
      (0, List.replicate 5 0) := by decide

/-- C3 (counterexample): the default compressor succeeds on the 1-byte
source with the adequate destination size lzav_compress_bound 1 = 19,
and called again with dstl = 18 = lzav_compress_bound 1 - 1 it still
returns 3 instead of the claimed 0: the tiny-data path only requires
dstl >= srcl + 2. -/
theorem claim_C3_cex :
    lzav_compress_bound 1 = 19 ∧
    (lzav_compress (some [65]) false false 1 19 none).1 = 3 ∧
    (lzav_compress (some [65]) false false 1 18 none).1 = 3 := by
  refine ⟨by decide, by decide, by decide⟩

/-- C3 (amended): with destination capacity one below the corresponding
bound, the default compressor returns 0 for every source longer than
the tiny-data threshold 32, and the high-ratio compressor returns 0
for every source; for default-compressor sources of length 1..32 the
tiny-data path succeeds whenever dstl >= srcl + 2, so the claim holds
only outside that range. -/
theorem claim_C3_amended :
    ∀ (src : Option (List Nat)) (dn al : Bool) (srcl : Int) (eb : Option Int),
      (32 < srcl →
        (lzav_compress src dn al srcl (lzav_compress_bound srcl - 1) eb).1 = 0) ∧
      (lzav_compress_hi src dn al srcl (lzav_compress_bound_hi srcl - 1)).1 = 0 := by
  intro src dn al srcl eb
  constructor
  · intro h
    unfold lzav_compress
    rw [if_neg (by omega)]
    rw [if_pos (Or.inr (Or.inr (Or.inr (Or.inr (by omega)))))]
  · unfold lzav_compress_hi
    rw [if_pos (Or.inr (Or.inr (Or.inr (Or.inr (by omega)))))]

/-- Witness for claim C3 (amended) at srcl = 33. -/
theorem claim_C3_amended_witness :
    (32 : Int) < 33 ∧
    (lzav_compress (some (List.replicate 33 0)) false false 33
      (lzav_compress_bound 33 - 1) none).1 = 0 ∧
    (lzav_compress_hi (some (List.replicate 33 0)) false false 33
      (lzav_compress_bound_hi 33 - 1)).1 = 0 :=
  ⟨by decide,
    (claim_C3_amended (some (List.replicate 33 0)) false false 33 none).1
      (by decide),
    (claim_C3_amended (some (List.replicate 33 0)) false false 33 none).2⟩

/-- C4: a null source pointer is not always rejected.  With srcl = 1
and dstl = 16, lzav_compress dispatches to the tiny-data path before
any pointer validation; that path returns srcl + 2 = 3 (and the C code
copies one byte through the null pointer, which is undefined
behaviour), instead of the claimed 0.  Only for srcl > 32 does the
main-path guard src == 0 reject the call. -/
theorem claim_C4_null_src :
    (lzav_compress none false false 1 16 none).1 = 3 := by decide

/-- C5 (counterexample): neither bound function is monotone
non-decreasing: lzav_compress_bound drops from 169 at 149 to 167 at
150 (the quotient srcl / 150 jumps while the padding quotient falls),
and lzav_compress_bound_hi drops from 40 at 20 to 38 at 21. -/
theorem claim_C5_cex :
    lzav_compress_bound 150 < lzav_compress_bound 149 ∧
    lzav_compress_bound_hi 21 < lzav_compress_bound_hi 20 := by
  refine ⟨by decide, by decide⟩

/-- C5 (amended): both bound functions return a value strictly greater
than n for every n > 0; the monotonicity half of the claim is dropped
(see the counterexample). -/
theorem claim_C5_amended : ∀ n : Int, 0 < n →
    n < lzav_compress_bound n ∧ n < lzav_compress_bound_hi n := by
  intro n hn
  unfold lzav_compress_bound lzav_compress_bound_hi
  rw [if_neg (by omega), if_neg (by omega)]
  constructor <;> omega

/-- Witness for claim C5 (amended) at n = 7. -/
theorem claim_C5_amended_witness :
    (0 : Int) < 7 ∧ (7 : Int) < lzav_compress_bound 7 ∧
      (7 : Int) < lzav_compress_bound_hi 7 :=
  ⟨by decide, (claim_C5_amended 7 (by decide)).1, (claim_C5_amended 7 (by decide)).2⟩

/-- C6: the tiny-data path of lzav_compress emits a stream with no
terminal literal block at all.  For the 1-byte source 65 it succeeds
(return 3) and the whole stream is prefix byte 0x26, length byte 1 and
the single source byte: it does not end with LZAV_LIT_FIN = 6 literal
bytes produced by a terminal literal-only block (it is only 3 bytes
long), contradicting the claim and the stream-format documentation in
lzav.h that compressed data always finishes with LZAV_LIT_FIN
literals. -/
theorem claim_C6_tiny_no_fin :
    lzav_compress (some [65]) false false 1 19 none = (3, [38, 1, 65]) := by
  decide

/-- C8 (counterexample): the code's dead-offset guard declares the
distances 6 and 7 dead although the claim says every candidate with
REF_MIN <= d <= WIN_LEN - 1 proceeds to extension and emission
(REF_MIN = 6, so 6 and 7 are inside that range: the code tests d < 8,
not d < REF_MIN). -/
theorem claim_C8_cex :
    lzav_d_oob 6 = true ∧ lzav_d_oob 7 = true ∧
      ¬ spec_dead_offset 6 ∧ ¬ spec_dead_offset 7 := by
  refine ⟨by decide, by decide, ?_, ?_⟩ <;>
    simp [spec_dead_offset, LZAV_REF_MIN, LZAV_WIN_LEN]

/-- C8 (amended): the guard used by the default compressor's match step
treats a candidate distance as a dead offset exactly when d < 8 or
d > WIN_LEN - 1; every candidate with 8 <= d <= WIN_LEN - 1 proceeds
to extension and block emission. -/
theorem claim_C8_amended :
    ∀ d : Nat, lzav_d_oob d = true ↔ (d < 8 ∨ LZAV_WIN_LEN - 1 < d) := by
  intro d
  simp [lzav_d_oob]

/-- C9: partial decode fails on the full stream of a compressed tiny
source.  lzav_compress on the 16-byte all-1 source (adequate
destination, lzav_compress_bound 16 = 34) takes the tiny-data path and
returns the 18-byte stream 0x26, 0x10 followed by the source bytes;
lzav_decompress_partial on that complete stream returns 0, not 16:
the stream is not canonical format 2 (byte 0x10 parses as a reference
block header whose distance is nonzero at output position 0, so
lzav_decompress_2 stops with REFOOB after writing nothing). -/
theorem claim_C9_partial_zero :
    lzav_compress_bound 16 = 34 ∧
    lzav_compress (some (List.replicate 16 1)) false false 16 34 none =
      (18, [38, 16] ++ List.replicate 16 1) ∧
    (lzav_decompress_p (some ([38, 16] ++ List.replicate 16 1))
      (some (List.replicate 16 0)) false 18 16).1 = 0 := by
  refine ⟨by decide, by decide, by decide⟩

/-- C10: the tiny-data path behaviour.  For every source of length srcl
with 1 <= srcl <= 32 and every dstl >= srcl + 2, lzav_compress returns
exactly srcl + 2 and writes the prefix byte (FMT_CUR << 4) | 6 = 38,
one byte holding srcl, then the srcl source bytes verbatim —
independent of the source content, of the destination-null and
aliasing flags (the tiny path performs no pointer validation), and of
the external-buffer argument. -/
theorem claim_C10_tiny (src : List Nat) (dn al : Bool) (srcl dstl : Int)
    (eb : Option Int) (h1 : 1 ≤ srcl) (h2 : srcl ≤ 32) (h3 : srcl + 2 ≤ dstl)
    (h4 : (src.length : Int) = srcl) :
    lzav_compress (some src) dn al srcl dstl eb =
      (srcl + 2, 38 :: srcl.toNat :: src) := by
  unfold lzav_compress lzav_tiny_compress
  rw [if_pos h2, if_neg (by omega)]
  have hlen : srcl.toNat = src.length := by omega
  have hm : srcl.toNat % 256 = srcl.toNat := Nat.mod_eq_of_lt (by omega)
  simp [hm, hlen, List.take_length]
  omega

/-- Witness for claim C10 at the 1-byte source 7 with dstl = 3. -/
theorem claim_C10_tiny_witness :
    (1 : Int) ≤ 1 ∧ (1 : Int) ≤ 32 ∧ (1 : Int) + 2 ≤ 3 ∧
      (([7] : List Nat).length : Int) = 1 ∧
      lzav_compress (some [7]) false false 1 3 none = (3, [38, 1, 7]) := by
  refine ⟨by decide, by decide, by decide, by decide, ?_⟩
  have h := claim_C10_tiny [7] false false 1 3 none (by decide) (by decide)
    (by decide) (by decide)
  simpa using h

end Lzav
